import Mathlib

/-!
Verification of the eigen-skeleton workflow graph engine.

This file shallowly embeds the core of the repository (registries, edge
resolver, graph builder, workflow definition and its `run` entry point) as
executable Lean definitions, and proves or refutes the frozen claims about
the natural-language specification.

Conventions:
- JavaScript objects are embedded as association lists `List (String × JValue)`.
- The JS `Map` used by the registries is embedded with `mapGet` / `mapSet` /
  `mapHas`, written recursively so that proofs go by structural induction.
- Mutation-plus-exception code is embedded in state-passing style: a function
  returns `Except E α × State`, and a thrown exception returns the state as it
  was at the throw site (which is how the partially-mutated global registries
  survive a failed `defineWorkflow`).
-/

namespace EigenSkeleton

/-- Embedding of JSON-like runtime values (the `any` payloads flowing through
state objects). Objects are association lists of fields. -/
inductive JValue : Type where
  | null : JValue
  | bool (b : Bool) : JValue
  | num (n : Int) : JValue
  | str (s : String) : JValue
  | arr (xs : List JValue) : JValue
  | obj (fields : List (String × JValue)) : JValue

/-- A JavaScript object / the shared workflow state: a list of named fields. -/
abbrev StateObj : Type := List (String × JValue)

/-- Embedding of `Map.prototype.get` (and of property lookup on a plain
object): first binding for the key, if any. -/
def mapGet {α : Type} : List (String × α) → String → Option α
  | [], _ => none
  | (k₀, v) :: rest, k => if k₀ = k then some v else mapGet rest k

/-- Embedding of `Map.prototype.set` / property assignment: replace the
binding in place if the key exists, append it otherwise. -/
def mapSet {α : Type} : List (String × α) → String → α → List (String × α)
  | [], k, v => [(k, v)]
  | (k₀, v₀) :: rest, k, v =>
      if k₀ = k then (k, v) :: rest else (k₀, v₀) :: mapSet rest k v

/-- Embedding of `Map.prototype.has`. -/
def mapHas {α : Type} (m : List (String × α)) (k : String) : Bool :=
  (mapGet m k).isSome

/-! Edge resolver (src/core/helpers.ts).  A conditional edge carries its
source, target, predicate, and optional display metadata. -/

/-- Embedding of the `ConditionalEdge<StateType>` record from
src/core/helpers.ts.  The source and target fields are called `from` and `to`
in TypeScript; both are reserved words in Lean, so they are named `fromId`
and `toId` here (matching the parameter names of `addEdgeToGraph`). -/
structure CondEdge (σ : Type) : Type where
  fromId : String
  toId : String
  when : σ → Bool
  label : Option String := none
  description : Option String := none

/-- Embedding of the result type of a LangGraph routing function, the union
`string | string[]`: `single` is a bare string (serial continuation),
`multi` is an array (parallel branches; the empty array halts the branch). -/
inductive RouteResult : Type where
  | single (target : String) : RouteResult
  | multi (targets : List String) : RouteResult
deriving DecidableEq

/-- Embedding of the match-collection loop inside `routingFn` in
`finalizeConditionalEdges`: walk the group in declaration order and push the
target of every edge whose predicate holds on the current state. -/
def collectMatches {σ : Type} (edges : List (CondEdge σ)) (state : σ) : List String :=
  edges.foldl (fun ms e => if e.when state then ms ++ [e.toId] else ms) []

/-- Embedding of the routing function built by `finalizeConditionalEdges`
for one source node: zero matches return the empty array, exactly one match
returns that target as a bare string, several matches return the array of
all of them. -/
def routingFn {σ : Type} (edges : List (CondEdge σ)) (state : σ) : RouteResult :=
  let ms := collectMatches edges state
  if ms.length = 0 then .multi []
  else if ms.length = 1 then .single (ms.headD "")
  else .multi ms

/-- Embedding of the grouping loop of `finalizeConditionalEdges`: fold the
declared conditional edges into a `Map` from source id to the list of its
edges, appending within each group in declaration order. -/
def groupLoop {σ : Type} (m : List (String × List (CondEdge σ))) :
    List (CondEdge σ) → List (String × List (CondEdge σ))
  | [] => m
  | e :: rest => groupLoop (mapSet m e.fromId (((mapGet m e.fromId).getD []) ++ [e])) rest

/-- Grouping of conditional edges by source node, starting from the empty map
(the `grouped` map of `finalizeConditionalEdges`). -/
def groupEdges {σ : Type} (conditionalEdges : List (CondEdge σ)) :
    List (String × List (CondEdge σ)) :=
  groupLoop [] conditionalEdges

/-! Registries (src/core/callableRegistry.ts, src/core/workflowRegistry.ts,
src/tools/registry.ts).  All three registries have the same `register` body:
throw on a duplicate key, insert otherwise. -/

/-- Error thrown by a registry when a key is registered twice. -/
inductive RegError : Type where
  | duplicate (key : String) : RegError
deriving DecidableEq

/-- Embedding of `register`: if the key is already present, throw and leave
the map untouched (the throw happens before the `set`); otherwise insert.
State-passing style: the second component is the backing map after the call. -/
def registerS {α : Type} (m : List (String × α)) (k : String) (v : α) :
    Except RegError Unit × List (String × α) :=
  if mapHas m k then (.error (.duplicate k), m) else (.ok (), mapSet m k v)

/-- Embedding of `listCallables` / `listWorkflows`: all registered keys. -/
def listKeys {α : Type} (m : List (String × α)) : List String :=
  m.map (fun kv => kv.1)

/-! State merging.  Node handlers return partial state updates; the merge of
an update into the running state is performed by the graph runtime the
repository delegates to (see the comment at the return of `registerLlmNode`:
the node returns a partial update and the graph library merges it). -/

/-- Modelled from the spec: the field-level replacement merge of a handler
returned partial update into the running state, which the repository
delegates to the graph library and the spec describes as assignment of each
returned field over the prior state, with no deep merge of nested
structures.  Each field of the update is assigned into the prior state in
order; a field absent from the prior state is added. -/
def mergeState (prior update : StateObj) : StateObj :=
  update.foldl (fun acc kv => mapSet acc kv.1 kv.2) prior

/-! Schema validation.  The repository validates `run` input with
`meta.inputSchema.parse` from the external Zod library; the spec specifies
this collaborator only at its boundary. -/

/-- Primitive field types of the embedded schema language. -/
inductive FieldType : Type where
  | string : FieldType
  | number : FieldType
  | boolean : FieldType
deriving DecidableEq

/-- One declared field of a `z.object()` schema: its type and whether it is
optional. -/
structure FieldSpec : Type where
  type : FieldType
  optional : Bool
deriving DecidableEq

/-- A `z.object()` schema: named field specifications. -/
abbrev Schema : Type := List (String × FieldSpec)

/-- Check of a value against a primitive field type. -/
def typeMatches : FieldType → JValue → Bool
  | .string, .str _ => true
  | .number, .num _ => true
  | .boolean, .bool _ => true
  | _, _ => false

/-- Modelled from the spec: the schema-validator collaborator (spec section 6,
the Zod `parse` call at the top of `run`, not part of this repository):
given a schema and a value it returns either the validated value, stripped
to the declared fields, or a structured validation error carrying the
violated field paths.  A missing required field or a type mismatch on a
present field is an issue at that field path; a non-object input is an issue
at the root path. -/
def zodParse (schema : Schema) (input : JValue) :
    Except (List (List String)) StateObj :=
  match input with
  | .obj fields =>
      let issues := schema.foldl (fun acc entry =>
        match mapGet fields entry.1 with
        | none => if entry.2.optional then acc else acc ++ [[entry.1]]
        | some v => if typeMatches entry.2.type v then acc else acc ++ [[entry.1]]) []
      if issues.isEmpty then
        .ok (schema.foldl (fun acc entry =>
          match mapGet fields entry.1 with
          | some v => acc ++ [(entry.1, v)]
          | none => acc) [])
      else .error issues
  | _ => .error [[]]

/-! The workflow `run` entry point (src/core/workflow.ts, part_006). -/

/-- Embedding of the Langfuse `CallbackHandler` that `run` constructs:
a session id and a tag list.  Tracing data only. -/
structure CallbackHandler : Type where
  sessionId : String
  tags : List String
deriving DecidableEq

/-- Embedding of the `configurable` part of the options `run` passes to
`app.invoke`: the checkpoint thread id. -/
structure Configurable : Type where
  threadId : String
deriving DecidableEq

/-- Embedding of the options object `run` passes to `app.invoke`.
`recursionLimit` is the LangGraph invocation option bounding the number of
supersteps; the source never sets it, so the options are built with `none`
there. -/
structure InvokeOptions : Type where
  configurable : Configurable
  callbacks : List CallbackHandler
  recursionLimit : Option Nat
deriving DecidableEq

/-- The `meta` argument of `defineWorkflow`, restricted to what `run` reads:
the workflow id, the input schema, and the metadata (stringified values, as
`run` only ever turns them into tag strings). -/
structure WorkflowMeta : Type where
  id : String
  inputSchema : Schema
  metadata : List (String × String)

/-- Embedding of the tag list `run` builds: the workflow id tag followed by
one `key:value` tag per metadata entry. -/
def mkTags (meta : WorkflowMeta) : List String :=
  ("workflow:" ++ meta.id) :: meta.metadata.map (fun kv => kv.1 ++ ":" ++ kv.2)

/-- Embedding of the options construction at the `app.invoke` call site of
`run` (part_006 lines 181 to 192): a Langfuse handler whose session id
embeds the workflow id and the clock (`now` stands for `Date.now()`), the
hardcoded checkpoint thread id, and no recursion limit. -/
def mkInvokeOptions (meta : WorkflowMeta) (now : Nat) : InvokeOptions :=
  { configurable := { threadId := "trip-planning-session-1" }
    callbacks := [{ sessionId := "workflow-" ++ meta.id ++ "-" ++ toString now
                    tags := mkTags meta }]
    recursionLimit := none }

/-- Errors that can escape `run`: the raw validation error thrown by
`inputSchema.parse` (carrying its violated field paths) or the raw error
with which the graph invocation rejected.  `run` has no try/catch, so both
propagate to the caller unchanged. -/
inductive RunError : Type where
  | inputValidation (issues : List (List String)) : RunError
  | invokeFailure (message : String) : RunError
deriving DecidableEq

/-- The compiled graph as `run` sees it: `app.invoke` consumes the parsed
input, the checkpoint thread id and the optional recursion limit, and yields
either the final state or an execution error, together with the list of node
handlers it invoked (instrumentation for the proofs).  Tracing callbacks are
observational (spec section 6) and do not enter execution. -/
abbrev AppInvoke : Type :=
  StateObj → Configurable → Option Nat → Except String StateObj × List String

/-- Observable outcome of one `run` invocation: the result returned to (or
the error raised at) the caller, the node handlers that ran, and the tracing
callbacks that were constructed. -/
structure RunOutcome : Type where
  result : Except RunError StateObj
  invoked : List String
  callbacks : List CallbackHandler

/-- Embedding of `run` from `defineWorkflow` (part_006 lines 171 to 196):
parse the input against the input schema (a failure escapes before anything
else runs), build the Langfuse handler and the invocation options, then
invoke the compiled graph under the hardcoded thread id. -/
def runWorkflow (meta : WorkflowMeta) (appInvoke : AppInvoke) (now : Nat)
    (input : JValue) : RunOutcome :=
  match zodParse meta.inputSchema input with
  | .error issues =>
      { result := .error (.inputValidation issues), invoked := [], callbacks := [] }
  | .ok parsed =>
      let options := mkInvokeOptions meta now
      match appInvoke parsed options.configurable options.recursionLimit with
      | (.error e, trace) =>
          { result := .error (.invokeFailure e), invoked := trace
            callbacks := options.callbacks }
      | (.ok finalState, trace) =>
          { result := .ok finalState, invoked := trace
            callbacks := options.callbacks }

/-! Graph builder (the `WorkflowBuilder` closure in `defineWorkflow`). -/

/-- Embedding of the mutable `StateGraph` as the builder sees it: the added
nodes, each a named handler `(State) -> PartialState`, and the unconditional
edges wired so far. -/
structure StateGraph : Type where
  nodes : List (String × (StateObj → StateObj))
  edges : List (String × String)

/-- Embedding of `graph.addNode`. -/
def addNodeG (g : StateGraph) (id : String) (handler : StateObj → StateObj) :
    StateGraph :=
  { g with nodes := g.nodes ++ [(id, handler)] }

/-- A `CallableRegistrationFunction`: receives the graph under construction
and the node config object, and attaches the node. -/
abbrev RegistrationFn : Type := StateGraph → StateObj → StateGraph

/-- Build-time errors of the workflow builder. -/
inductive BuildError : Type where
  | stepTypeNotFound (nodeType : String) (available : List String) : BuildError

/-- Embedding of `NodeHandle`. -/
structure NodeHandle : Type where
  id : String
deriving DecidableEq

/-- Embedding of `addNode` of the `WorkflowBuilder` (part_006 lines 129 to
141): look the node type up in the callable registry; when it is absent,
throw before touching the graph; otherwise call the registration function on
the graph and on the config object extended with the node id (the spread
`config` then `id`, so `id` wins), and return a handle carrying the id. -/
def addNodeB (registry : List (String × RegistrationFn)) (builder : StateGraph)
    (id nodeType : String) (config : StateObj) :
    Except BuildError NodeHandle × StateGraph :=
  match mapGet registry nodeType with
  | none => (.error (.stepTypeNotFound nodeType (listKeys registry)), builder)
  | some registerFn =>
      (.ok { id := id }, registerFn builder (mergeState config [("id", JValue.str id)]))

/-! Nested workflow composition (`createWorkflowRegistration`, part_006
lines 46 to 76). -/

/-- Embedding of the node config consumed by `createWorkflowRegistration`:
the node id added by `addNode`, an optional input mapping, and an optional
target key. -/
structure WorkflowNodeConfig : Type where
  id : String
  buildInput : Option (StateObj → StateObj)
  targetKey : Option String

/-- Embedding of the node handler installed by `createWorkflowRegistration`:
map the parent state through `buildInput` when configured (otherwise pass
the state directly), run the child workflow to completion on it, and either
wrap the child final state under `targetKey` or return it directly as the
partial update. -/
def workflowNodeHandler (childRun : StateObj → StateObj)
    (config : WorkflowNodeConfig) (state : StateObj) : StateObj :=
  let input := match config.buildInput with
    | some f => f state
    | none => state
  let result := childRun input
  match config.targetKey with
  | some key => [(key, JValue.obj result)]
  | none => result

/-- Embedding of `createWorkflowRegistration`: the registration function it
returns adds, under the configured node id, a node running the child
workflow. -/
def createWorkflowRegistration (childRun : StateObj → StateObj) :
    StateGraph → WorkflowNodeConfig → StateGraph :=
  fun graph config => addNodeG graph config.id (workflowNodeHandler childRun config)

/-! Registration tail of `defineWorkflow` (part_006 lines 199 to 205). -/

/-- The two process-wide registries `defineWorkflow` writes: the workflow
registry (compiled workflows, for the invocation surface) and the callable
registry (registration functions, for the builder). -/
structure Registries (ω κ : Type) : Type where
  workflowReg : List (String × ω)
  callableReg : List (String × κ)

/-- Embedding of the registration tail of `defineWorkflow`: register the
compiled workflow in the workflow registry, then register it in the callable
registry.  Each step throws on a duplicate key, and a throw leaves every
mutation already made in place (the registries are process-wide mutable
maps). -/
def defineWorkflowRegister {ω κ : Type} (regs : Registries ω κ) (id : String)
    (wf : ω) (regFn : κ) : Except RegError Unit × Registries ω κ :=
  match registerS regs.workflowReg id wf with
  | (.error e, wreg) => (.error e, { regs with workflowReg := wreg })
  | (.ok _, wreg) =>
      match registerS regs.callableReg id regFn with
      | (.error e, creg) => (.error e, { workflowReg := wreg, callableReg := creg })
      | (.ok _, creg) => (.ok (), { workflowReg := wreg, callableReg := creg })

/-! Concrete fixtures used by the witness and counterexample theorems.
They mirror the weather-umbrella example shipped with the repository. -/

/-- The input schema of the weather-umbrella workflow: a required string
field `location`. -/
def weatherInputSchema : Schema :=
  [("location", { type := FieldType.string, optional := false })]

/-- An input violating `weatherInputSchema`: the empty object (the required
`location` field is missing). -/
def emptyInput : JValue := JValue.obj []

/-- An input satisfying `weatherInputSchema`. -/
def parisInput : JValue := JValue.obj [("location", JValue.str "Paris")]

/-- A concrete compiled graph that succeeds, echoing the parsed input and
reporting one executed node. -/
def invokeEcho : AppInvoke := fun parsed _ _ => (.ok parsed, ["weatherCheck"])

/-- A concrete compiled graph whose invocation rejects with a raw error. -/
def invokeBoom : AppInvoke := fun _ _ _ => (.error "boom", ["weatherCheck"])

/-- A conditional edge from `check` to `ok`, taken when the `flag` state
field is true (the scenario of spec section 8). -/
def edgeOk : CondEdge StateObj :=
  { fromId := "check", toId := "ok"
    when := fun s => match mapGet s "flag" with
      | some (JValue.bool b) => b
      | _ => false }

/-- A conditional edge from `check` to `fail`, taken when the `flag` state
field is false. -/
def edgeFail : CondEdge StateObj :=
  { fromId := "check", toId := "fail"
    when := fun s => match mapGet s "flag" with
      | some (JValue.bool b) => !b
      | _ => false }

/-- A state in which `flag` is true. -/
def stFlagTrue : StateObj := [("flag", JValue.bool true)]

/-- Meta of the weather-umbrella workflow, without metadata tags. -/
def wfMetaWeather : WorkflowMeta :=
  { id := "weather-umbrella", inputSchema := weatherInputSchema, metadata := [] }

/-- Meta of the weather-umbrella workflow with its metadata tags. -/
def wfMetaTagged : WorkflowMeta :=
  { id := "weather-umbrella", inputSchema := weatherInputSchema,
    metadata := [("workflow", "weather-umbrella")] }

/-- Meta of a workflow with an empty input schema. -/
def wfMetaEmptySchema : WorkflowMeta :=
  { id := "location-weather", inputSchema := [], metadata := [] }

/-- Meta of a workflow named `wf-a` (differs from `wfMetaB` only in id). -/
def wfMetaA : WorkflowMeta :=
  { id := "wf-a", inputSchema := weatherInputSchema, metadata := [] }

/-- Meta of a workflow named `wf-b` (differs from `wfMetaA` only in id). -/
def wfMetaB : WorkflowMeta :=
  { id := "wf-b", inputSchema := weatherInputSchema, metadata := [] }

/-! Helper lemmas about the embedded `Map` operations and the merge. -/

theorem mapGet_mapSet_same {α : Type} (m : List (String × α)) (k : String) (v : α) :
    mapGet (mapSet m k v) k = some v := by
  induction m with
  | nil => simp [mapSet, mapGet]
  | cons hd tl ih =>
      by_cases h : hd.1 = k
      · simp [mapSet, mapGet, h]
      · simp [mapSet, mapGet, h, ih]

theorem mapGet_mapSet_other {α : Type} (m : List (String × α)) (k k' : String) (v : α)
    (hne : k ≠ k') : mapGet (mapSet m k v) k' = mapGet m k' := by
  induction m with
  | nil => simp [mapSet, mapGet, hne]
  | cons hd tl ih =>
      by_cases h : hd.1 = k
      · subst h
        simp [mapSet, mapGet, hne]
      · simp only [mapSet, if_neg h]
        by_cases h' : hd.1 = k'
        · simp [mapGet, h']
        · simp [mapGet, h', ih]

theorem mapGet_append {α : Type} (a b : List (String × α)) (k : String) :
    mapGet (a ++ b) k =
      match mapGet a k with
      | some v => some v
      | none => mapGet b k := by
  induction a with
  | nil => simp [mapGet]
  | cons hd tl ih =>
      by_cases h : hd.1 = k
      · simp [mapGet, h]
      · simp [mapGet, h, ih]

theorem mapGet_eq_none {α : Type} (m : List (String × α)) (k : String)
    (h : k ∉ m.map Prod.fst) : mapGet m k = none := by
  induction m with
  | nil => rfl
  | cons hd tl ih =>
      simp only [List.map_cons, List.mem_cons] at h
      push_neg at h
      simp [mapGet, Ne.symm h.1, ih h.2]

theorem mergeState_get (prior update : StateObj) (k : String) :
    mapGet (mergeState prior update) k =
      match mapGet update.reverse k with
      | some v => some v
      | none => mapGet prior k := by
  induction update generalizing prior with
  | nil => simp [mergeState, mapGet]
  | cons hd tl ih =>
      have step : mergeState prior (hd :: tl) = mergeState (mapSet prior hd.1 hd.2) tl := rfl
      rw [step, ih, List.reverse_cons, mapGet_append]
      cases htl : mapGet tl.reverse k with
      | some v => simp
      | none =>
          by_cases h : hd.1 = k
          · subst h
            simp [mapGet, mapGet_mapSet_same]
          · simp [mapGet, h, mapGet_mapSet_other prior hd.1 k hd.2 h]

theorem mapGet_reverse {α : Type} (m : List (String × α)) (k : String)
    (h : (m.map Prod.fst).Nodup) : mapGet m.reverse k = mapGet m k := by
  induction m with
  | nil => rfl
  | cons hd tl ih =>
      simp only [List.map_cons, List.nodup_cons] at h
      rw [List.reverse_cons, mapGet_append, ih h.2]
      by_cases hk : hd.1 = k
      · subst hk
        rw [mapGet_eq_none tl hd.1 h.1]
        simp [mapGet]
      · cases htl : mapGet tl k with
        | some v => simp [mapGet, hk, htl]
        | none => simp [mapGet, hk, htl]

theorem groupLoop_get {σ : Type} (ces : List (CondEdge σ))
    (m : List (String × List (CondEdge σ))) (k : String) :
    mapGet (groupLoop m ces) k =
      (if (ces.filter (fun e => e.fromId = k)).isEmpty then mapGet m k
       else some (((mapGet m k).getD []) ++ ces.filter (fun e => e.fromId = k))) := by
  induction ces generalizing m with
  | nil => simp [groupLoop]
  | cons e rest ih =>
      simp only [groupLoop]
      rw [ih]
      by_cases he : e.fromId = k
      · subst he
        rw [mapGet_mapSet_same]
        cases hr : rest.filter (fun x => x.fromId = e.fromId) with
        | nil => simp [List.filter_cons, hr]
        | cons a l => simp [List.filter_cons, hr, List.append_assoc]
      · rw [mapGet_mapSet_other m e.fromId k _ he]
        simp [List.filter_cons, he]

theorem groupEdges_get {σ : Type} (ces : List (CondEdge σ)) (k : String) :
    mapGet (groupEdges ces) k =
      (if (ces.filter (fun e => e.fromId = k)).isEmpty then none
       else some (ces.filter (fun e => e.fromId = k))) := by
  rw [groupEdges, groupLoop_get]
  cases hr : ces.filter (fun e => e.fromId = k) with
  | nil => simp [hr, mapGet]
  | cons a l => simp [hr, mapGet]

theorem collectMatches_eq_filter_map {σ : Type} (edges : List (CondEdge σ)) (state : σ) :
    collectMatches edges state =
      (edges.filter (fun e => e.when state)).map (fun e => e.toId) := by
  have key : ∀ (es : List (CondEdge σ)) (acc : List String),
      es.foldl (fun ms e => if e.when state then ms ++ [e.toId] else ms) acc =
        acc ++ (es.filter (fun e => e.when state)).map (fun e => e.toId) := by
    intro es
    induction es with
    | nil => intro acc; simp
    | cons e rest ih =>
        intro acc
        by_cases h : e.when state = true
        · simp [List.foldl_cons, h, ih, List.filter_cons]
        · simp [List.foldl_cons, h, ih, List.filter_cons]
  simpa using key edges []

/-! Claim theorems. -/

/-- C1: for every source node with conditional edges, the routing function
compiled by `finalizeConditionalEdges` works over exactly that source's
declared edges in declaration order, evaluates each predicate on the current
state and collects the matching targets; zero matches yield the empty
continuation, exactly one match yields that single target, and several
matches yield all matched targets as parallel branches. -/
theorem conditional_edge_routing {σ : Type} (ces : List (CondEdge σ)) (src : String)
    (st : σ) (g : List (CondEdge σ))
    (hg : mapGet (groupEdges ces) src = some g) :
    g = ces.filter (fun e => e.fromId = src)
    ∧ collectMatches g st = (g.filter (fun e => e.when st)).map (fun e => e.toId)
    ∧ (collectMatches g st = [] → routingFn g st = .multi [])
    ∧ (∀ t, collectMatches g st = [t] → routingFn g st = .single t)
    ∧ (∀ t₁ t₂ ts, collectMatches g st = t₁ :: t₂ :: ts →
        routingFn g st = .multi (t₁ :: t₂ :: ts)) := by
  refine ⟨?_, collectMatches_eq_filter_map g st, ?_, ?_, ?_⟩
  · have h := groupEdges_get ces src
    rw [hg] at h
    cases hfil : ces.filter (fun e => e.fromId = src) with
    | nil => rw [hfil] at h; simp at h
    | cons a l =>
        rw [hfil] at h
        simp only [List.isEmpty_cons, Bool.false_eq_true, if_false,
          Option.some.injEq] at h
        exact h
  · intro h0; simp [routingFn, h0]
  · intro t h1; simp [routingFn, h1]
  · intro t₁ t₂ ts h2; simp [routingFn, h2]

/-- Witness for C1: in the two-edge scenario from `check`, with the `flag`
field true, routing selects the single target `ok`. -/
theorem conditional_edge_routing_witness :
    routingFn [edgeOk, edgeFail] stFlagTrue = RouteResult.single "ok" :=
  (conditional_edge_routing [edgeOk, edgeFail] "check" stFlagTrue
    [edgeOk, edgeFail] rfl).2.2.2.1 "ok" rfl

/-- C2: merging a handler returned partial update into the running state is
field-level replacement: a field present in the update wholly replaces the
prior value of that field (nested structures included, since the whole
`JValue` is replaced), and every other field keeps its prior value. -/
theorem merge_is_field_level_replacement (prior update : StateObj)
    (hnodup : (update.map Prod.fst).Nodup) (k : String) :
    mapGet (mergeState prior update) k =
      match mapGet update k with
      | some v => some v
      | none => mapGet prior k := by
  rw [mergeState_get, mapGet_reverse update k hnodup]

/-- Witness for C2: from prior state with x mapped to 1 and y mapped to 2
and an update setting y to 3, the merged state has y mapped to 3 and x
unchanged at 1. -/
theorem merge_is_field_level_replacement_witness :
    mapGet (mergeState [("x", JValue.num 1), ("y", JValue.num 2)]
      [("y", JValue.num 3)]) "y" = some (JValue.num 3)
    ∧ mapGet (mergeState [("x", JValue.num 1), ("y", JValue.num 2)]
      [("y", JValue.num 3)]) "x" = some (JValue.num 1) :=
  ⟨(merge_is_field_level_replacement [("x", JValue.num 1), ("y", JValue.num 2)]
      [("y", JValue.num 3)] (by decide) "y").trans rfl,
   (merge_is_field_level_replacement [("x", JValue.num 1), ("y", JValue.num 2)]
      [("y", JValue.num 3)] (by decide) "x").trans rfl⟩

/-- C3: `run` validates the input against the declared input schema before
anything else; on a validation failure the caller receives the validation
error carrying the violated field paths, no node handler is invoked, and no
final state is produced. -/
theorem run_validates_input_first (meta : WorkflowMeta) (appInvoke : AppInvoke)
    (now : Nat) (input : JValue) (issues : List (List String))
    (h : zodParse meta.inputSchema input = .error issues) :
    runWorkflow meta appInvoke now input =
      { result := .error (.inputValidation issues), invoked := [], callbacks := [] } := by
  simp [runWorkflow, h]

/-- Witness for C3: running the weather workflow on the empty object fails
validation at the `location` path and invokes no node. -/
theorem run_validates_input_first_witness :
    runWorkflow wfMetaWeather invokeEcho 0 emptyInput =
      { result := .error (.inputValidation [["location"]]), invoked := [],
        callbacks := [] } :=
  run_validates_input_first wfMetaWeather invokeEcho 0 emptyInput [["location"]] rfl

/-- C4: a compiled workflow used as a node runs the child on the parent
state (mapped through `buildInput` when one is configured), and merges the
child final state back either wrapped under `targetKey` or directly as the
partial update. -/
theorem nested_workflow_merge_back (childRun : StateObj → StateObj)
    (config : WorkflowNodeConfig) (state : StateObj) :
    (∀ key, config.targetKey = some key →
        workflowNodeHandler childRun config state =
          [(key, JValue.obj (childRun (match config.buildInput with
            | some f => f state
            | none => state)))])
    ∧ (config.targetKey = none →
        workflowNodeHandler childRun config state =
          childRun (match config.buildInput with
            | some f => f state
            | none => state)) := by
  constructor
  · intro key hk
    simp [workflowNodeHandler, hk]
  · intro hk
    simp [workflowNodeHandler, hk]

/-- Witness for C4: with `targetKey` set to `sub` and no `buildInput`, the
parent state update is exactly the child final state wrapped under `sub`. -/
theorem nested_workflow_merge_back_witness :
    workflowNodeHandler (fun _ => [("result", JValue.str "ok")])
      { id := "weather", buildInput := none, targetKey := some "sub" }
      [("location", JValue.str "Paris")] =
      [("sub", JValue.obj [("result", JValue.str "ok")])] :=
  ((nested_workflow_merge_back (fun _ => [("result", JValue.str "ok")])
      { id := "weather", buildInput := none, targetKey := some "sub" }
      [("location", JValue.str "Paris")]).1 "sub" rfl).trans rfl

/-- C5: registering a key that is already registered fails with the
duplicate-registration error and leaves the backing map untouched, so a
subsequent get still returns the previously stored handler. -/
theorem register_rejects_duplicate {α : Type} (m : List (String × α))
    (k : String) (v existing : α) (h : mapGet m k = some existing) :
    registerS m k v = (.error (.duplicate k), m)
    ∧ mapGet (registerS m k v).2 k = some existing := by
  have hhas : mapHas m k = true := by simp [mapHas, h]
  refine ⟨?_, ?_⟩
  · simp [registerS, hhas]
  · simp [registerS, hhas, h]

/-- Witness for C5: re-registering `llmNode` fails and the original handler
is still returned. -/
theorem register_rejects_duplicate_witness :
    registerS [("llmNode", 1)] "llmNode" 2 =
      (.error (.duplicate "llmNode"), [("llmNode", 1)])
    ∧ mapGet (registerS [("llmNode", 1)] "llmNode" 2).2 "llmNode" = some 1 :=
  register_rejects_duplicate [("llmNode", 1)] "llmNode" 2 1 rfl

/-- C6 counterexample: the claim says the runtime exposes a configurable
maximum-step limit, but the invocation options `run` builds carry no
recursion limit at all, at concrete workflows and clock values; `run` takes
only the input, so no caller can configure one. -/
theorem step_limit_claim_counterexample :
    (mkInvokeOptions wfMetaTagged 0).recursionLimit = none
    ∧ (mkInvokeOptions wfMetaEmptySchema 99).recursionLimit = none :=
  ⟨rfl, rfl⟩

/-- C6 amended: the run interface exposes no step-limit configuration: the
options `run` passes to the graph invocation never carry a recursion limit,
and `run` behaves identically to a run whose graph invocation always
receives no limit. -/
theorem run_passes_no_recursion_limit (meta : WorkflowMeta)
    (appInvoke : AppInvoke) (now : Nat) (input : JValue) :
    (mkInvokeOptions meta now).recursionLimit = none
    ∧ runWorkflow meta appInvoke now input =
        runWorkflow meta (fun parsed cfg _ => appInvoke parsed cfg none) now input :=
  ⟨rfl, rfl⟩

/-- C7 counterexample: the claim says run-time errors are wrapped with the
workflow id; concretely, a validation failure and an invocation failure both
surface as the raw underlying error, and the failure value is identical for
two workflows that differ only in their id, so no workflow id is attached. -/
theorem run_error_wrapping_counterexample :
    (runWorkflow wfMetaA invokeEcho 0 emptyInput).result =
      .error (.inputValidation [["location"]])
    ∧ (runWorkflow wfMetaA invokeEcho 0 emptyInput).result =
      (runWorkflow wfMetaB invokeEcho 0 emptyInput).result
    ∧ (runWorkflow wfMetaA invokeBoom 0 parisInput).result =
      .error (.invokeFailure "boom")
    ∧ (runWorkflow wfMetaA invokeBoom 0 parisInput).result =
      (runWorkflow wfMetaB invokeBoom 0 parisInput).result :=
  ⟨rfl, rfl, rfl, rfl⟩

/-- C7 amended: `run` has no try/catch and adds no wrapping: its result and
the set of invoked handlers are determined by the schema validation and the
graph invocation alone, independent of the workflow id and metadata (those
enter only the tracing callbacks), so errors propagate to the caller
unchanged. -/
theorem run_outcome_independent_of_workflow_identity (id₁ id₂ : String)
    (md₁ md₂ : List (String × String)) (schema : Schema)
    (appInvoke : AppInvoke) (now : Nat) (input : JValue) :
    (runWorkflow { id := id₁, inputSchema := schema, metadata := md₁ }
        appInvoke now input).result =
      (runWorkflow { id := id₂, inputSchema := schema, metadata := md₂ }
        appInvoke now input).result
    ∧ (runWorkflow { id := id₁, inputSchema := schema, metadata := md₁ }
        appInvoke now input).invoked =
      (runWorkflow { id := id₂, inputSchema := schema, metadata := md₂ }
        appInvoke now input).invoked := by
  cases hp : zodParse schema input with
  | error issues => simp [runWorkflow, hp]
  | ok parsed =>
      cases hi : appInvoke parsed { threadId := "trip-planning-session-1" } none with
      | mk res trace =>
          cases res with
          | error e => simp [runWorkflow, hp, mkInvokeOptions, hi]
          | ok finalState => simp [runWorkflow, hp, mkInvokeOptions, hi]

/-- C8: `addNode` with an unregistered step type fails with the
step-type-not-found error and leaves the graph untouched; with a registered
step type it delegates construction to the resolved registration function
(on the config extended with the id) and returns a handle whose id is the
given id. -/
theorem addNode_dispatch (registry : List (String × RegistrationFn))
    (builder : StateGraph) (id nodeType : String) (config : StateObj) :
    (mapGet registry nodeType = none →
        addNodeB registry builder id nodeType config =
          (.error (.stepTypeNotFound nodeType (listKeys registry)), builder))
    ∧ (∀ registerFn, mapGet registry nodeType = some registerFn →
        addNodeB registry builder id nodeType config =
          (.ok { id := id },
           registerFn builder (mergeState config [("id", JValue.str id)]))) := by
  constructor
  · intro h
    simp [addNodeB, h]
  · intro registerFn h
    simp [addNodeB, h]

/-- Witness for C8: on an empty registry the `llm` step type is rejected and
the builder is unchanged; once registered, `addNode` returns a handle with
the requested id. -/
theorem addNode_dispatch_witness :
    addNodeB [] { nodes := [], edges := [] } "n1" "llm" [] =
      (.error (.stepTypeNotFound "llm" []), { nodes := [], edges := [] })
    ∧ addNodeB [("llm", fun g _ => g)] { nodes := [], edges := [] } "n1" "llm" [] =
      (.ok { id := "n1" }, { nodes := [], edges := [] }) :=
  ⟨(addNode_dispatch [] { nodes := [], edges := [] } "n1" "llm" []).1 rfl,
   ((addNode_dispatch [("llm", fun g _ => g)] { nodes := [], edges := [] }
      "n1" "llm" []).2 (fun g _ => g) rfl).trans rfl⟩

/-- C9: the checkpoint thread id `run` passes to the graph invocation is the
fixed constant, for every workflow and every clock value, and the options
are built from nothing else, so no per-run or per-session checkpoint keying
exists at the run interface. -/
theorem checkpoint_thread_id_constant (meta : WorkflowMeta) (now : Nat) :
    (mkInvokeOptions meta now).configurable.threadId = "trip-planning-session-1" :=
  rfl

/-- C10: `defineWorkflow` registers in the workflow registry first and in
the callable registry second; when the callable registry already holds the
id, the call fails with the duplicate-registration error but the entry
already added to the workflow registry remains, and the callable registry is
unchanged — a failed `defineWorkflow` leaves a partial registration. -/
theorem defineWorkflow_partial_registration {ω κ : Type} (regs : Registries ω κ)
    (id : String) (wf : ω) (regFn : κ)
    (hw : mapHas regs.workflowReg id = false)
    (hc : mapHas regs.callableReg id = true) :
    (defineWorkflowRegister regs id wf regFn).1 = .error (.duplicate id)
    ∧ mapGet (defineWorkflowRegister regs id wf regFn).2.workflowReg id = some wf
    ∧ (defineWorkflowRegister regs id wf regFn).2.callableReg = regs.callableReg := by
  simp [defineWorkflowRegister, registerS, hw, hc, mapGet_mapSet_same]

/-- Witness for C10: with an empty workflow registry and a callable registry
already holding the id, registration fails yet the workflow registry keeps
the new entry and the callable registry is unchanged. -/
theorem defineWorkflow_partial_registration_witness :
    (defineWorkflowRegister
      ({ workflowReg := [], callableReg := [("weather-umbrella", 0)] } :
        Registries Nat Nat) "weather-umbrella" 1 2).1 =
      .error (.duplicate "weather-umbrella")
    ∧ mapGet (defineWorkflowRegister
      ({ workflowReg := [], callableReg := [("weather-umbrella", 0)] } :
        Registries Nat Nat) "weather-umbrella" 1 2).2.workflowReg
        "weather-umbrella" = some 1
    ∧ (defineWorkflowRegister
      ({ workflowReg := [], callableReg := [("weather-umbrella", 0)] } :
        Registries Nat Nat) "weather-umbrella" 1 2).2.callableReg =
        [("weather-umbrella", 0)] := by
  have h := defineWorkflow_partial_registration
    ({ workflowReg := [], callableReg := [("weather-umbrella", 0)] } :
      Registries Nat Nat) "weather-umbrella" 1 2 rfl rfl
  exact ⟨h.1, h.2.1, h.2.2⟩

end EigenSkeleton
